import Mathlib

/-!
Verification of the ParkPulse tiled vehicle-detection pipeline and the
reliability-gated capacity estimator.

The Python source is embedded shallowly:
- Python floats become `ℚ` (exact arithmetic over the same formulas);
- Python ints become `ℤ` (or `ℕ` where the source value is a length/index);
- `raise ValueError` becomes `Except String`;
- `round` (Python 3 banker's rounding) becomes `pyRound`;
- `int(...)` on a float (truncation toward zero) becomes `pyInt`.
-/

namespace ParkPulse

/-- Python 3 `round` to an integer: round half to even (banker's rounding). -/
def pyRound (q : ℚ) : ℤ :=
  if q - ⌊q⌋ < 1/2 then ⌊q⌋
  else if (1 : ℚ)/2 < q - ⌊q⌋ then ⌊q⌋ + 1
  else if ⌊q⌋ % 2 = 0 then ⌊q⌋ else ⌊q⌋ + 1

/-- Python `int(x)` for a float `x`: truncation toward zero. -/
def pyInt (q : ℚ) : ℤ :=
  if q < 0 then ⌈q⌉ else ⌊q⌋

/-- Embeds `estimate_spots_from_cars` (src/parkpulse/estimate.py lines 4-21):
`occupancy <= 0 or occupancy > 1` raises, `n_cars < 0` raises, otherwise
`max(n_cars, math.ceil(n_cars / occupancy))`. -/
def estimate_spots_from_cars (n_cars : ℤ) (occupancy : ℚ) : Except String ℤ :=
  if occupancy ≤ 0 ∨ 1 < occupancy then Except.error "occupancy must be in (0, 1]"
  else if n_cars < 0 then Except.error "n_cars must be non-negative"
  else Except.ok (max n_cars ⌈(n_cars : ℚ) / occupancy⌉)

/-- Embeds `estimate_spots_from_area` (src/parkpulse/estimate.py lines 24-41):
`m2_per_spot <= 0` raises, `area_m2 < 0` raises, otherwise
`max(0, int(area_m2 // m2_per_spot))` (float floor division). -/
def estimate_spots_from_area (area_m2 : ℚ) (m2_per_spot : ℚ) : Except String ℤ :=
  if m2_per_spot ≤ 0 then Except.error "m2_per_spot must be positive"
  else if area_m2 < 0 then Except.error "area_m2 must be non-negative"
  else Except.ok (max 0 ⌊area_m2 / m2_per_spot⌋)

/-- Embeds the coverage computation of src/app.py line 247:
`coverage = (n_cars / spots_from_area) if spots_from_area > 0 else 0.0`. -/
def coverage (n_cars : ℕ) (spots_from_area : ℤ) : ℚ :=
  if 0 < spots_from_area then (n_cars : ℚ) / (spots_from_area : ℚ) else 0

/-- Output of the reliability blender: the combined capacity estimate and the
weight given to the detector-derived estimate. -/
structure BlendOut where
  combined : ℤ
  weight_cars : ℚ
deriving DecidableEq

/-- Embeds the reliability gating and weighted blending of src/app.py
lines 249-259.  If `n_cars == 0 or coverage < min_coverage` the area-based
estimate is used verbatim with `weight_cars = 0`; otherwise a ramp factor is
clamped to `[0, 1]` and the two estimates are blended and rounded. -/
def blend (n_cars : ℕ) (spots_from_area spots_from_cars : ℤ)
    (occupancy min_coverage blend_strength : ℚ) : BlendOut :=
  if n_cars = 0 ∨ coverage n_cars spots_from_area < min_coverage then
    { combined := spots_from_area, weight_cars := 0 }
  else
    let denom := max (1 / 1000000) (occupancy - min_coverage)
    let ramp := min 1 (max 0 ((coverage n_cars spots_from_area - min_coverage) / denom))
    let w := blend_strength * ramp
    { combined := pyRound ((1 - w) * (spots_from_area : ℚ) + w * (spots_from_cars : ℚ)),
      weight_cars := w }

/-- Embeds the capacity-uncertainty computation of src/app.py lines 236-237:
`max(1, round(max(spread / 2, 0.2 * (spots_from_area + spots_from_cars) / 2)))`
with `spread = abs(spots_from_area - spots_from_cars)`. -/
def capacity_uncertainty (spots_from_area spots_from_cars : ℤ) : ℤ :=
  let spread : ℚ := |(spots_from_area : ℚ) - (spots_from_cars : ℚ)|
  max 1 (pyRound (max (spread / 2)
    (1/5 * ((spots_from_area : ℚ) + (spots_from_cars : ℚ)) / 2)))

/-- Helper: `pyRound` agrees with the floor when the fractional part is
below one half. -/
lemma pyRound_eq_low (q : ℚ) (n : ℤ) (h1 : (n : ℚ) ≤ q) (h2 : q < (n : ℚ) + 1/2) :
    pyRound q = n := by
  have hf : ⌊q⌋ = n := by
    rw [Int.floor_eq_iff]
    constructor
    · exact h1
    · linarith
  unfold pyRound
  rw [hf, if_pos (by rw [hf] at *; linarith)]

/-- Claim C1: whenever `n_cars = 0` or the coverage `n_cars / spots_from_area`
(defined as `0` when `spots_from_area = 0`) is below `min_coverage`, the
reliability blender outputs `combined = spots_from_area` and `weight_cars = 0`
(the Unreliable state), regardless of every other input. -/
theorem blend_gate_unreliable (n_cars : ℕ) (sfa sfc : ℤ) (occ minCov bs : ℚ)
    (h : n_cars = 0 ∨ coverage n_cars sfa < minCov) :
    blend n_cars sfa sfc occ minCov bs = { combined := sfa, weight_cars := 0 } := by
  unfold blend
  rw [if_pos h]

/-- Witness for C1: at `n_cars = 0` with arbitrary other inputs, the blender
returns the area-based estimate with zero detector weight. -/
theorem blend_gate_unreliable_witness :
    blend 0 5 7 (3/5) (1/20) (3/5) = { combined := 5, weight_cars := 0 } :=
  blend_gate_unreliable 0 5 7 (3/5) (1/20) (3/5) (Or.inl rfl)

/-- Claim C4: for `n_cars ≥ 0` and `occupancy ∈ (0, 1]`,
`estimate_spots_from_cars` returns `max n_cars ⌈n_cars / occupancy⌉`
(the ceiling floored at `n_cars`), and hence every returned value is at
least `n_cars`. -/
theorem estimate_spots_from_cars_ceil_ge (n : ℤ) (occ : ℚ)
    (hn : 0 ≤ n) (h0 : 0 < occ) (h1 : occ ≤ 1) :
    estimate_spots_from_cars n occ = Except.ok (max n ⌈(n : ℚ) / occ⌉) ∧
    ∀ r : ℤ, estimate_spots_from_cars n occ = Except.ok r → n ≤ r := by
  have hc : ¬(occ ≤ 0 ∨ 1 < occ) := by push_neg; exact ⟨h0, h1⟩
  have hn2 : ¬(n < 0) := not_lt.mpr hn
  constructor
  · unfold estimate_spots_from_cars
    rw [if_neg hc, if_neg hn2]
  · intro r hr
    unfold estimate_spots_from_cars at hr
    rw [if_neg hc, if_neg hn2, Except.ok.injEq] at hr
    rw [← hr]
    exact le_max_left _ _

/-- Witness for C4: at `n_cars = 40`, `occupancy = 1`, the function returns
the ceiling floored at `n_cars`. -/
theorem estimate_spots_from_cars_ceil_ge_witness :
    estimate_spots_from_cars 40 1 = Except.ok (max 40 ⌈(40 : ℚ) / 1⌉) :=
  (estimate_spots_from_cars_ceil_ge 40 1 (by decide) one_pos le_rfl).1

/-- Claim C9: for `area_m2 ≥ 0` and a fixed `m2_per_spot > 0`,
`estimate_spots_from_area` succeeds with a non-negative result and is
monotonically non-decreasing in `area_m2`. -/
theorem estimate_spots_from_area_nonneg_mono (a b c : ℚ)
    (ha : 0 ≤ a) (hab : a ≤ b) (hc : 0 < c) :
    ∃ r s, estimate_spots_from_area a c = Except.ok r ∧
      estimate_spots_from_area b c = Except.ok s ∧ 0 ≤ r ∧ r ≤ s := by
  have hcn : ¬(c ≤ 0) := not_le.mpr hc
  have han : ¬(a < 0) := not_lt.mpr ha
  have hbn : ¬(b < 0) := not_lt.mpr (le_trans ha hab)
  refine ⟨max 0 ⌊a / c⌋, max 0 ⌊b / c⌋, ?_, ?_, le_max_left 0 _,
    max_le_max le_rfl (Int.floor_le_floor (div_le_div_of_nonneg_right hab hc.le))⟩
  · unfold estimate_spots_from_area
    rw [if_neg hcn, if_neg han]
  · unfold estimate_spots_from_area
    rw [if_neg hcn, if_neg hbn]

/-- Witness for C9: at `area_m2 = 0 ≤ 60` and `m2_per_spot = 30` both calls
succeed, the first result is non-negative and at most the second. -/
theorem estimate_spots_from_area_nonneg_mono_witness :
    ∃ r s, estimate_spots_from_area 0 30 = Except.ok r ∧
      estimate_spots_from_area 60 30 = Except.ok s ∧ 0 ≤ r ∧ r ≤ s :=
  estimate_spots_from_area_nonneg_mono 0 60 30 le_rfl (by norm_num) (by norm_num)

/-- Claim C10: the capacity uncertainty
`max(1, round(max(spread / 2, 0.2 * (sfa + sfc) / 2)))` is at least 1 for
every pair of non-negative integer estimates, including when both are zero. -/
theorem capacity_uncertainty_ge_one (a b : ℕ) :
    1 ≤ capacity_uncertainty a b :=
  le_max_left 1 _

/-- Claim C5: the worked scenario.  With `n_cars = 40`,
`spots_from_area = 60`, `occupancy = 3/5`, `min_coverage = 1/20`,
`blend_strength = 3/5`: the cars-based estimate is 67, the coverage is
`2/3`, the ramp saturates at 1, and the blender outputs
`combined = 64` with `weight_cars = 3/5`. -/
theorem scenario_blend_40_60 :
    estimate_spots_from_cars 40 (3/5) = Except.ok 67 ∧
    coverage 40 60 = 2/3 ∧
    min 1 (max 0 ((coverage 40 60 - 1/20) / max (1/1000000) (3/5 - 1/20))) = 1 ∧
    blend 40 60 67 (3/5) (1/20) (3/5) = { combined := 64, weight_cars := 3/5 } := by
  have hcov : coverage 40 60 = 2/3 := by
    unfold coverage
    rw [if_pos (by norm_num)]
    norm_num
  have hceil : ⌈((40 : ℤ) : ℚ) / (3/5)⌉ = 67 := by
    have h40 : ((40 : ℤ) : ℚ) / (3/5) = 200/3 := by norm_num
    rw [h40, Int.ceil_eq_iff]
    constructor <;> norm_num
  have hcars : estimate_spots_from_cars 40 (3/5) = Except.ok 67 := by
    unfold estimate_spots_from_cars
    rw [if_neg (by norm_num), if_neg (by norm_num), hceil, max_eq_right (by norm_num)]
  have hramp : min 1 (max 0 ((coverage 40 60 - 1/20) / max (1/1000000) (3/5 - 1/20))) = 1 := by
    rw [hcov]
    have hden : max (1/1000000 : ℚ) (3/5 - 1/20) = 11/20 := by
      rw [max_eq_right] <;> norm_num
    rw [hden]
    have hval : ((2/3 : ℚ) - 1/20) / (11/20) = 37/33 := by norm_num
    rw [hval, max_eq_right (by norm_num), min_eq_left (by norm_num)]
  refine ⟨hcars, hcov, hramp, ?_⟩
  unfold blend
  rw [if_neg ?hgate]
  case hgate =>
    rw [hcov]
    push_neg
    exact ⟨by norm_num, by norm_num⟩
  simp only [hramp]
  have hsum : (1 - (3/5 : ℚ) * 1) * (60 : ℤ) + (3/5) * 1 * (67 : ℤ) = 321/5 := by
    push_cast
    norm_num
  rw [BlendOut.mk.injEq]
  constructor
  · rw [hsum, pyRound_eq_low (321/5) 64 (by norm_num) (by norm_num)]
  · norm_num

/-- A tile window of the mosaic: origin `(x0, y0)` and clipped exclusive
corner `(x1, y1)`, as produced by the loops of src/parkpulse/detect.py
lines 91-94 (`y1 = min(y0 + tile, H)`, `x1 = min(x0 + tile, W)`). -/
structure Tile where
  x0 : ℕ
  y0 : ℕ
  x1 : ℤ
  y1 : ℤ
deriving DecidableEq

/-- Embeds the tile partition of `detect_cars` (src/parkpulse/detect.py lines
85-94): `step = max(1, tile - overlap)`, then `for y0 in range(0, H, step):
for x0 in range(0, W, step)`, each window clipped at the image boundary.
`range(0, limit, s)` for `s ≥ 1` enumerates `k * s` for
`k < (limit + s - 1) / s`. -/
def tiles (H W : ℕ) (tileSz overlap : ℤ) : List Tile :=
  let s := (max 1 (tileSz - overlap)).toNat
  ((List.range ((H + s - 1) / s)).map (· * s)).flatMap fun y0 =>
    ((List.range ((W + s - 1) / s)).map (· * s)).map fun x0 =>
      { x0 := x0, y0 := y0,
        x1 := min ((x0 : ℤ) + tileSz) (W : ℤ),
        y1 := min ((y0 : ℤ) + tileSz) (H : ℤ) }

/-- Pixel `(x, y)` lies inside tile `t`. -/
def covers (t : Tile) (x y : ℕ) : Prop :=
  t.x0 ≤ x ∧ (x : ℤ) < t.x1 ∧ t.y0 ≤ y ∧ (y : ℤ) < t.y1

instance (t : Tile) (x y : ℕ) : Decidable (covers t x y) := by
  unfold covers
  infer_instance

/-- Helper: one-dimensional stride coverage.  Stepping by `s ≤ tileN` from 0
reaches every coordinate `p < limit` within a window of length `tileN`. -/
lemma stride_cover (limit s tileN p : ℕ) (hs : 0 < s) (hst : s ≤ tileN)
    (hp : p < limit) :
    ∃ k, k < (limit + s - 1) / s ∧ k * s ≤ p ∧ p < k * s + tileN := by
  refine ⟨p / s, ?_, Nat.div_mul_le_self p s, ?_⟩
  · have h1 : p / s ≤ (limit - 1) / s := Nat.div_le_div_right (by omega)
    have h2 : (limit + s - 1) / s = (limit - 1) / s + 1 := by
      have h3 : limit + s - 1 = (limit - 1) + s := by omega
      rw [h3, Nat.add_div_right _ hs]
    omega
  · have h3 : p < p / s * s + s := by
      conv_lhs => rw [← Nat.div_add_mod' p s]
      exact Nat.add_lt_add_left (Nat.mod_lt p hs) _
    exact lt_of_lt_of_le h3 (Nat.add_le_add_left hst _)

/-- Claim C2: for every image `H, W > 0`, `tile_size > 0` and
`0 ≤ overlap < tile_size`, every pixel of the image is covered by at least
one tile of the partition — the union of the tile windows has no gaps. -/
theorem tiling_covers_every_pixel (H W : ℕ) (tileSz overlap : ℤ)
    (_hH : 0 < H) (_hW : 0 < W)
    (ht : 0 < tileSz) (ho : 0 ≤ overlap) (hlt : overlap < tileSz)
    (x y : ℕ) (hx : x < W) (hy : y < H) :
    ∃ t ∈ tiles H W tileSz overlap, covers t x y := by
  simp only [tiles, List.mem_flatMap, List.mem_map, List.mem_range]
  set s := (max 1 (tileSz - overlap)).toNat with hs_def
  have hs_pos : 0 < s := by
    have h1 : (1 : ℤ) ≤ max 1 (tileSz - overlap) := le_max_left _ _
    omega
  have hs_le : s ≤ tileSz.toNat := by
    have h2 : max 1 (tileSz - overlap) = tileSz - overlap := max_eq_right (by omega)
    omega
  obtain ⟨kx, hkx, hkxle, hkxlt⟩ := stride_cover W s tileSz.toNat x hs_pos hs_le hx
  obtain ⟨ky, hky, hkyle, hkylt⟩ := stride_cover H s tileSz.toNat y hs_pos hs_le hy
  refine ⟨_, ⟨ky * s, ⟨ky, hky, rfl⟩, kx * s, ⟨kx, hkx, rfl⟩, rfl⟩, ?_⟩
  refine ⟨hkxle, ?_, hkyle, ?_⟩ <;> simp only [] <;> omega

/-- Witness for C2: in a 3×3 image tiled with `tile_size = 2`, `overlap = 1`,
the corner pixel `(2, 2)` is covered by some tile. -/
theorem tiling_covers_every_pixel_witness :
    ∃ t ∈ tiles 3 3 2 1, covers t 2 2 :=
  tiling_covers_every_pixel 3 3 2 1 (by decide) (by decide) (by decide)
    (by decide) (by decide) 2 2 (by decide) (by decide)

/-- Error taxonomy named by the specification. -/
inductive PPError where
  | configurationError
  | invalidParameter
  | inferenceFailure
deriving DecidableEq

/-- Embeds the tiling stage of `detect_cars` as a fallible computation.  The
source (src/parkpulse/detect.py lines 85-94) performs no validation of the
tile size: it computes `step = max(1, tile - overlap)` and loops, so the
partition always succeeds, whatever `tile` is. -/
def tilePartition (H W : ℕ) (tileSz overlap : ℤ) : Except PPError (List Tile) :=
  Except.ok (tiles H W tileSz overlap)

/-- Counterexample to claim C7: invoked with `tile_size = 0 ≤ 0` on a 4×4
image, the partitioner does not fail with a ConfigurationError — it returns a
normal (degenerate) tile list. -/
theorem tilePartition_no_error_at_zero :
    tilePartition 4 4 0 2 ≠ Except.error PPError.configurationError := by
  simp [tilePartition]

/-- Amended claim C7: the partitioner never validates `tile_size`; for every
`tile_size ≤ 0` it succeeds, and every tile it produces is degenerate
(empty: `x1 ≤ x0` and `y1 ≤ y0`) rather than an error being raised. -/
theorem tilePartition_degenerate_of_nonpos (H W : ℕ) (tileSz overlap : ℤ)
    (hts : tileSz ≤ 0) :
    tilePartition H W tileSz overlap = Except.ok (tiles H W tileSz overlap) ∧
    ∀ t ∈ tiles H W tileSz overlap, t.x1 ≤ (t.x0 : ℤ) ∧ t.y1 ≤ (t.y0 : ℤ) := by
  refine ⟨rfl, ?_⟩
  intro t ht
  simp only [tiles, List.mem_flatMap, List.mem_map, List.mem_range] at ht
  obtain ⟨y0, ⟨ky, hky, hy0⟩, x0, ⟨kx, hkx, hx0⟩, hteq⟩ := ht
  subst hteq
  constructor <;> simp only [] <;> omega

/-- Witness for C7 (amended): with `tile_size = 0` on a 2×2 image the
partition succeeds and all tiles are degenerate. -/
theorem tilePartition_degenerate_of_nonpos_witness :
    tilePartition 2 2 0 1 = Except.ok (tiles 2 2 0 1) ∧
    ∀ t ∈ tiles 2 2 0 1, t.x1 ≤ (t.x0 : ℤ) ∧ t.y1 ≤ (t.y0 : ℤ) :=
  tilePartition_degenerate_of_nonpos 2 2 0 1 (by decide)

/-- An axis-aligned pixel box with rational coordinates. -/
structure Box where
  x1 : ℚ
  y1 : ℚ
  x2 : ℚ
  y2 : ℚ
deriving DecidableEq

/-- Intersection area of two boxes (zero when they do not overlap). -/
def interArea (a b : Box) : ℚ :=
  max 0 (min a.x2 b.x2 - max a.x1 b.x1) * max 0 (min a.y2 b.y2 - max a.y1 b.y1)

/-- Area of a box. -/
def boxArea (a : Box) : ℚ := (a.x2 - a.x1) * (a.y2 - a.y1)

/-- Intersection over union of two boxes, as used by torchvision nms. -/
def iou (a b : Box) : ℚ :=
  interArea a b / (boxArea a + boxArea b - interArea a b)

/-- A detection candidate entering non-max suppression: a box with its
confidence score. -/
structure ScoredBox where
  box : Box
  conf : ℚ
deriving DecidableEq

/-- Descending confidence order used to sort candidates before greedy
suppression. -/
def confGE (a b : ScoredBox) : Prop := b.conf ≤ a.conf

instance : DecidableRel confGE :=
  fun a b => inferInstanceAs (Decidable (b.conf ≤ a.conf))

instance : IsTotal ScoredBox confGE := ⟨fun a b => le_total b.conf a.conf⟩

instance : IsTrans ScoredBox confGE := ⟨fun _ _ _ h1 h2 => le_trans h2 h1⟩

/-- Greedy pass of non-max suppression over a score-sorted candidate list:
keep the head, drop every later box whose IoU with it exceeds the threshold,
recurse on the survivors. -/
def nmsGo (thr : ℚ) : List ScoredBox → List ScoredBox
  | [] => []
  | p :: rest =>
      p :: nmsGo thr (rest.filter fun q => decide (iou p.box q.box ≤ thr))
termination_by l => l.length
decreasing_by
  simp only [List.length_cons]
  exact Nat.lt_succ_of_le (List.length_filter_le _ _)

/-- Embeds `torchvision.ops.nms` as called at src/parkpulse/detect.py
line 131: sort all candidates by confidence descending, then greedily keep
the highest-confidence remaining box and discard any unkept box whose IoU
with a kept box exceeds the threshold. -/
def nms (thr : ℚ) (l : List ScoredBox) : List ScoredBox :=
  nmsGo thr (List.insertionSort confGE l)

/-- Helper: the greedy pass returns a sublist of its input. -/
lemma nmsGo_sublist (thr : ℚ) (l : List ScoredBox) : (nmsGo thr l).Sublist l := by
  induction l using nmsGo.induct thr with
  | case1 => simp [nmsGo]
  | case2 p rest ih =>
    simp only [nmsGo]
    exact List.Sublist.cons₂ p (ih.trans (List.filter_sublist _))

/-- Helper: every two boxes surviving the greedy pass have IoU at most the
threshold. -/
lemma nmsGo_pairwise (thr : ℚ) (l : List ScoredBox) :
    (nmsGo thr l).Pairwise fun a b => iou a.box b.box ≤ thr := by
  induction l using nmsGo.induct thr with
  | case1 => simp [nmsGo]
  | case2 p rest ih =>
    simp only [nmsGo]
    rw [List.pairwise_cons]
    refine ⟨fun b hb => ?_, ih⟩
    have hsub := nmsGo_sublist thr
      (rest.filter fun q => decide (iou p.box q.box ≤ thr))
    exact of_decide_eq_true (List.mem_filter.mp (hsub.subset hb)).2

/-- Helper: the greedy pass removes nothing from a list in which every pair
already has IoU at most the threshold. -/
lemma nmsGo_eq_self (thr : ℚ) (l : List ScoredBox)
    (h : l.Pairwise fun a b => iou a.box b.box ≤ thr) : nmsGo thr l = l := by
  induction l with
  | nil => simp [nmsGo]
  | cons p rest ih =>
    rw [List.pairwise_cons] at h
    have hfilter : (rest.filter fun q => decide (iou p.box q.box ≤ thr)) = rest :=
      List.filter_eq_self.mpr fun a ha => decide_eq_true (h.1 a ha)
    simp only [nmsGo, hfilter]
    rw [ih h.2]

/-- Helper: the greedy pass preserves descending-confidence sortedness. -/
lemma nmsGo_sorted (thr : ℚ) (l : List ScoredBox) (h : l.Sorted confGE) :
    (nmsGo thr l).Sorted confGE :=
  List.Pairwise.sublist (nmsGo_sublist thr l) h

/-- Claim C3: cross-tile greedy non-max suppression is idempotent — a second
run on its own output removes nothing — and its output is a subset of its
input: it never increases the detection count and never produces a box that
was not in the input. -/
theorem nms_idempotent_and_subset (thr : ℚ) (l : List ScoredBox) :
    nms thr (nms thr l) = nms thr l ∧
    (nms thr l).length ≤ l.length ∧
    ∀ b ∈ nms thr l, b ∈ l := by
  have hsorted : (List.insertionSort confGE l).Sorted confGE :=
    List.sorted_insertionSort confGE l
  have hsub : (nms thr l).Sublist (List.insertionSort confGE l) :=
    nmsGo_sublist thr _
  have hperm : (List.insertionSort confGE l).Perm l :=
    List.perm_insertionSort confGE l
  refine ⟨?_, ?_, ?_⟩
  · have hs2 : List.Sorted confGE (nms thr l) := nmsGo_sorted thr _ hsorted
    calc nms thr (nms thr l)
        = nmsGo thr (List.insertionSort confGE (nms thr l)) := rfl
      _ = nmsGo thr (nms thr l) := by rw [List.Sorted.insertionSort_eq hs2]
      _ = nms thr l := nmsGo_eq_self thr _ (nmsGo_pairwise thr _)
  · calc (nms thr l).length ≤ (List.insertionSort confGE l).length :=
          hsub.length_le
      _ = l.length := hperm.length_eq
  · intro b hb
    exact hperm.mem_iff.mp (hsub.subset hb)

/-- The vehicle class allow-list `VEHICLE_CLASS_NAMES`
(src/parkpulse/detect.py line 18). -/
def vehicleClassNames : List String := ["car", "van", "truck", "bus", "motor"]

/-- A detection kept by global NMS, still in (possibly upscaled) mosaic
space: box, confidence, lower-cased class name. -/
structure RawDet where
  box : Box
  conf : ℚ
  clsName : String
deriving DecidableEq

/-- An output record of `detect_cars`: integer mosaic coordinates,
confidence and class name (src/parkpulse/detect.py lines 168-178). -/
structure Det where
  x1 : ℤ
  y1 : ℤ
  x2 : ℤ
  y2 : ℤ
  conf : ℚ
  clsName : String
deriving DecidableEq

/-- Divide a box's coordinates back by the upscale factor when one was
applied (`if scale != 1.0`, src/parkpulse/detect.py lines 147-151). -/
def scaleBack (scale : ℚ) (b : Box) : Box :=
  if scale ≠ 1 then ⟨b.x1 / scale, b.y1 / scale, b.x2 / scale, b.y2 / scale⟩
  else b

/-- The size/aspect plausibility filters of src/parkpulse/detect.py lines
153-166: reject when `w < 6 or h < 6`, `w > 160 or h > 160`,
`area > 160 * 160`, or `aspect = w / max(1, h)` outside `[0.25, 4]`. -/
def passesFilters (b : Box) : Bool :=
  let w := b.x2 - b.x1
  let h := b.y2 - b.y1
  let area := w * h
  let aspect := w / max 1 h
  if w < 6 ∨ h < 6 then false
  else if 160 < w ∨ 160 < h then false
  else if (160 * 160 : ℚ) < area then false
  else if aspect < 1/4 ∨ 4 < aspect then false
  else true

/-- Truncate a raw detection to the integer output record
(`int(x1)` etc., src/parkpulse/detect.py lines 168-178). -/
def toDet (r : RawDet) : Det :=
  ⟨pyInt r.box.x1, pyInt r.box.y1, pyInt r.box.x2, pyInt r.box.y2,
    r.conf, r.clsName⟩

/-- Embeds the post-NMS loop of `detect_cars` (src/parkpulse/detect.py lines
136-178) faithfully: for each kept detection, drop non-vehicle classes, then
divide the box back by the upscale factor, then apply the plausibility
filters to the divided box, then emit the integer record. -/
def postProcess (scale : ℚ) (kept : List RawDet) : List Det :=
  kept.filterMap fun r =>
    if r.clsName ∈ vehicleClassNames then
      let b := scaleBack scale r.box
      if passesFilters b then some (toDet { r with box := b }) else none
    else none

/-- The post-NMS loop as claim C6 words it (a spec-side definition for
comparison): the plausibility filters operate on coordinates in UPSCALED
space, and the divide-back happens exactly once at the end, after both
deduplication and filtering. -/
def specPostProcess (scale : ℚ) (kept : List RawDet) : List Det :=
  kept.filterMap fun r =>
    if r.clsName ∈ vehicleClassNames then
      if passesFilters r.box then
        some (toDet { r with box := scaleBack scale r.box })
      else none
    else none

/-- Staged form of the faithful post-NMS loop: class filter, then exactly one
divide-back per box, then the plausibility filters on the divided
(original-space) boxes, then integer truncation. -/
def postProcessStaged (scale : ℚ) (kept : List RawDet) : List Det :=
  (((kept.filter fun r => decide (r.clsName ∈ vehicleClassNames)).map
      fun r => { r with box := scaleBack scale r.box }).filter
      fun r => passesFilters r.box).map toDet

/-- Counterexample to claim C6: with upscale factor 2, a kept car box of
upscaled size 8×8 is REJECTED by the code (it filters the divided 4×4 box,
whose width is below the 6-pixel minimum), while the claim's ordering
(filter in upscaled space, divide afterwards) would keep it.  So the
plausibility filter does not operate in upscaled space. -/
theorem postProcess_not_spec_ordering :
    postProcess 2 [⟨⟨0, 0, 8, 8⟩, 1/2, "car"⟩] = [] ∧
    specPostProcess 2 [⟨⟨0, 0, 8, 8⟩, 1/2, "car"⟩] = [⟨0, 0, 4, 4, 1/2, "car"⟩] ∧
    postProcess 2 [⟨⟨0, 0, 8, 8⟩, 1/2, "car"⟩] ≠
      specPostProcess 2 [⟨⟨0, 0, 8, 8⟩, 1/2, "car"⟩] := by
  have hscale : scaleBack 2 ⟨0, 0, 8, 8⟩ = ⟨0, 0, 4, 4⟩ := by
    unfold scaleBack
    rw [if_pos (by norm_num)]
    rw [Box.mk.injEq]
    norm_num
  have hfail : passesFilters (⟨0, 0, 4, 4⟩ : Box) = false := by
    unfold passesFilters
    rw [if_pos (by norm_num)]
  have hpass : passesFilters (⟨0, 0, 8, 8⟩ : Box) = true := by
    unfold passesFilters
    rw [if_neg (by norm_num), if_neg (by norm_num), if_neg (by norm_num),
      if_neg ?ha]
    case ha =>
      norm_num [max_def]
  have hcar : "car" ∈ vehicleClassNames := by decide
  have h1 : postProcess 2 [⟨⟨0, 0, 8, 8⟩, 1/2, "car"⟩] = [] := by
    simp only [postProcess, List.filterMap_cons, List.filterMap_nil, hcar,
      if_true, hscale, hfail]
    rfl
  have h2 : specPostProcess 2 [⟨⟨0, 0, 8, 8⟩, 1/2, "car"⟩] =
      [⟨0, 0, 4, 4, 1/2, "car"⟩] := by
    simp only [specPostProcess, List.filterMap_cons, List.filterMap_nil, hcar,
      if_true, hpass, hscale]
    simp only [toDet, pyInt]
    rw [List.cons.injEq, Det.mk.injEq]
    norm_num
  refine ⟨h1, h2, ?_⟩
  rw [h1, h2]
  exact fun hcontra => List.noConfusion hcontra

/-- Amended claim C6: global NMS operates in upscaled space, but the
divide-back by the upscale factor happens exactly once per kept box, after
deduplication and BEFORE the plausibility filters, which operate in original
(divided-back) pixel space: the faithful loop equals the staged pipeline
that class-filters, divides each box once, and then filters. -/
theorem postProcess_eq_staged (scale : ℚ) (kept : List RawDet) :
    postProcess scale kept = postProcessStaged scale kept := by
  unfold postProcess postProcessStaged
  induction kept with
  | nil => rfl
  | cons r rest ih =>
    by_cases h1 : r.clsName ∈ vehicleClassNames
    · by_cases h2 : passesFilters (scaleBack scale r.box)
      · simp [h1, h2, ih]
      · simp [h1, h2, ih]
    · simp [h1, ih]

/-- Embeds the per-tile prediction loop of `detect_cars`
(src/parkpulse/detect.py lines 91-126): tiles are processed in order with no
try/except around `model.predict`, so the first failing tile aborts the
whole call; on success all tiles' detections are concatenated. -/
def collectTiles :
    List (Except PPError (List ScoredBox)) → Except PPError (List ScoredBox)
  | [] => Except.ok []
  | r :: rest => do
      let boxes ← r
      let more ← collectTiles rest
      Except.ok (boxes ++ more)

/-- Embeds the area-level recovery of src/app.py lines 209-221: the whole
`detect_cars` call is wrapped in try/except and replaced by the empty
detection list when it raises. -/
def appDetections (results : List (Except PPError (List ScoredBox))) :
    List ScoredBox :=
  match collectTiles results with
  | Except.error _ => []
  | Except.ok l => l

/-- Per-tile recovery as claim C8 words it (a spec-side definition for
comparison): a failed tile contributes zero detections and the remaining
tiles are still processed. -/
def specTileRecover (results : List (Except PPError (List ScoredBox))) :
    List ScoredBox :=
  results.flatMap fun r =>
    match r with
    | Except.error _ => []
    | Except.ok l => l

/-- Counterexample to claim C8: when the first tile's model call fails and a
second tile detects one vehicle, the code yields NO detections for the area
(the failure aborts the whole `detect_cars` call and src/app.py replaces the
result with the empty list), whereas per-tile recovery would keep the second
tile's detection.  The remaining tiles are not processed. -/
theorem tile_failure_drops_all_tiles :
    appDetections [Except.error PPError.inferenceFailure,
      Except.ok [⟨⟨0, 0, 10, 10⟩, 9/10⟩]] = [] ∧
    specTileRecover [Except.error PPError.inferenceFailure,
      Except.ok [⟨⟨0, 0, 10, 10⟩, 9/10⟩]] = [⟨⟨0, 0, 10, 10⟩, 9/10⟩] ∧
    appDetections [Except.error PPError.inferenceFailure,
      Except.ok [⟨⟨0, 0, 10, 10⟩, 9/10⟩]] ≠
      specTileRecover [Except.error PPError.inferenceFailure,
        Except.ok [⟨⟨0, 0, 10, 10⟩, 9/10⟩]] := by
  refine ⟨rfl, rfl, ?_⟩
  intro hcontra
  rw [show appDetections [Except.error PPError.inferenceFailure,
      Except.ok [⟨⟨0, 0, 10, 10⟩, 9/10⟩]] = [] from rfl] at hcontra
  rw [show specTileRecover [Except.error PPError.inferenceFailure,
      Except.ok [⟨⟨0, 0, 10, 10⟩, 9/10⟩]] = [⟨⟨0, 0, 10, 10⟩, 9/10⟩] from rfl]
    at hcontra
  exact List.noConfusion hcontra

/-- Helper: the tile loop propagates the first inference failure. -/
lemma collectTiles_error (results : List (Except PPError (List ScoredBox)))
    (h : ∃ e, Except.error e ∈ results) :
    ∃ e, collectTiles results = Except.error e := by
  obtain ⟨e, he⟩ := h
  induction results with
  | nil => cases he
  | cons r rest ih =>
    rw [List.mem_cons] at he
    cases he with
    | inl h1 =>
      refine ⟨e, ?_⟩
      rw [← h1]
      rfl
    | inr h2 =>
      cases r with
      | error e2 => exact ⟨e2, rfl⟩
      | ok l =>
        obtain ⟨e3, he3⟩ := ih h2
        refine ⟨e3, ?_⟩
        simp only [collectTiles, he3]
        rfl

/-- Amended claim C8: a model failure on ANY tile aborts the entire
`detect_cars` call, so the area's detection list collapses to empty — every
tile's detections are discarded, not only the failing tile's — and the
area's estimate then proceeds from zero detections. -/
theorem tile_failure_empties_area
    (results : List (Except PPError (List ScoredBox)))
    (h : ∃ e, Except.error e ∈ results) :
    appDetections results = [] := by
  obtain ⟨e, he⟩ := collectTiles_error results h
  unfold appDetections
  rw [he]

/-- Witness for C8 (amended): a single failing tile yields the empty
area-level detection list. -/
theorem tile_failure_empties_area_witness :
    appDetections [Except.error PPError.inferenceFailure] = [] :=
  tile_failure_empties_area [Except.error PPError.inferenceFailure]
    ⟨PPError.inferenceFailure, List.mem_singleton.mpr rfl⟩

end ParkPulse
